import Mathlib

/-!
Verification of the crud repository's request-to-query translation pipeline.

The definitions below are a shallow embedding of the Go source:
  * `nameToField` embeds `controller/helper.go` (field-name resolution),
  * `QueryOption`, `WithPage`, `OrderBy`, `FilterBy`, `Preload`,
    `buildQueryOptions`, `getCountOptions` embed the query-option
    combinators of `service/*.go` and `controller/get.go`,
  * `DB`, `getParentByID`, `getChildByID`, `nestInto`, `createNestedHandler`
    embed the nested-create pipeline of `controller/create.go` and
    `service.NestInto`,
  * `deleteNestedByID`, `deleteByID`, `deleteHandler` embed
    `service/delete.go` and the delete handlers of the controller package,
  * `updateHandler` embeds `controller/update.go`,
  * `getIdParam` embeds `router/crud.go`.

Machine integers are modelled as `Nat`/`Int`; the persistence layer is
modelled as explicit state (lists of rows plus a join-link list), with
GORM's `Take`-by-primary-key as a `List.find?` and GORM's association
append/remove as list operations on the join-link list.
-/

namespace Crud

/-! ## String helpers (Go strings.ToLower / strings.Replace on single chars) -/

/-- Go `strings.ToLower` restricted to ASCII identifiers (field names). -/
def lowerStr (s : String) : String := ⟨s.data.map Char.toLower⟩

/-- Go `strings.Replace(s, string(c), "", -1)`: remove every occurrence of
the one-character pattern `c`. -/
def removeChar (s : String) (c : Char) : String := ⟨s.data.filter (fun x => x != c)⟩

/-! ## FieldResolver (`controller/helper.go` : `nameToField`) -/

/-- Shape of a Go model type as seen by `reflect` in `nameToField`:
either a struct with its top-level declared field names (in declaration
order), or a non-struct type. -/
inductive GoType where
  | structT (fields : List String)
  | nonStruct
  deriving DecidableEq

/-- Embedding of `controller/helper.go` `nameToField`: for non-struct
types return the name untouched; otherwise lower-case the name, strip
`' '`, `'-'`, `'_'`, `'/'` (in that order, as the four `strings.Replace`
calls do), and scan the declared fields comparing each lower-cased field
name to the normalized input, returning the first match's declared name,
or the normalized input if none matches. -/
def nameToField (name : String) (t : GoType) : String :=
  match t with
  | .nonStruct => name
  | .structT fields =>
    let n0 := lowerStr name
    let n1 := removeChar n0 ' '
    let n2 := removeChar n1 '-'
    let n3 := removeChar n2 '_'
    let n := removeChar n3 '/'
    match fields.find? (fun f => lowerStr f == n) with
    | some f => f
    | none => n

/-- The spec's one-pass description of the normalization: lower-case the
name and strip spaces, hyphens, underscores and slashes. -/
def normalizeSpec (s : String) : String :=
  ⟨(s.data.map Char.toLower).filter
    (fun c => !(c == ' ' || c == '-' || c == '_' || c == '/'))⟩

/-! ## HTTP status codes (`controller/response.go`) -/

def CodeSuccess : Nat := 200
def CodeNotFound : Nat := 404
def CodeBadRequest : Nat := 400
def CodeProcessFailed : Nat := 422

/-! ## QueryOptionPipeline (`service` query options and `controller/get.go`) -/

/-- Bound GET request parameters (`controller/get.go` : `GetRequestBody`).
Go's `int` form fields are modelled as `Int` (they default to 0 when
absent from the query string). -/
structure GetRequestBody where
  limit : Int
  offset : Int
  orderBy : String
  descending : Bool
  filterBy : String
  filterValue : String
  preload : List String
  total : Bool
  deriving DecidableEq

/-- A query option, as a tagged variant: the observable effect of each of
the functional options in `service` on the query context. -/
inductive QueryOption where
  | page (limit offset : Int)
  | order (expr : String)
  | filter (field : String) (value : String)
  | preloadOpt (path : String)
  deriving DecidableEq

/-- `service.WithPage(limit, offset)`: `tx.Limit(limit).Offset(offset)`. -/
def WithPage (limit offset : Int) : QueryOption := .page limit offset

/-- `service.OrderBy(field, descending)`: the order expression is the
field, with `" desc"` appended when descending is requested. -/
def OrderBy (field : String) (descending : Bool) : QueryOption :=
  .order (if descending then field ++ " desc" else field)

/-- `service.FilterBy(field, value)`: `tx.Where(map[string]any{field: value})`. -/
def FilterBy (field : String) (value : String) : QueryOption := .filter field value

/-- `service.Preload(field)`: `tx.Preload(field)`. -/
def Preload (field : String) : QueryOption := .preloadOpt field

/-- Embedding of `controller/get.go` `buildQueryOptions`: append the
pagination option iff `limit > 0`, the ordering option iff `order_by`
is non-empty, the equality filter iff both filter fields are non-empty,
then one preload option per requested path, in request order. -/
def buildQueryOptions (r : GetRequestBody) : List QueryOption :=
  (if r.limit > 0 then [WithPage r.limit r.offset] else []) ++
  (if r.orderBy ≠ "" then [OrderBy r.orderBy r.descending] else []) ++
  (if r.filterBy ≠ "" ∧ r.filterValue ≠ "" then [FilterBy r.filterBy r.filterValue] else []) ++
  r.preload.map Preload

/-- Embedding of `controller/get.go` `getCount`'s option construction:
only the equality filter, and only when both filter parameters are
non-empty. -/
def getCountOptions (filterBy : String) (filterValue : String) : List QueryOption :=
  if filterBy ≠ "" ∧ filterValue ≠ "" then [FilterBy filterBy filterValue] else []

/-- The preload paths an option list carries, in order. -/
def preloadPaths (opts : List QueryOption) : List String :=
  opts.filterMap (fun o => match o with | .preloadOpt p => some p | _ => none)

/-- The additional diagnostic fields a list response may carry
(`gin.H{"total": n}` or `gin.H{"totalError": msg}`). -/
inductive Addition where
  | total (n : Int)
  | totalError (msg : String)
  deriving DecidableEq

/-- Result of a list read as written by the handler. -/
inductive ListResp where
  | err (code : Nat) (msg : String)
  | success (rows : List Nat) (addition : List Addition)
  deriving DecidableEq

/-- Embedding of `controller/get.go` `GetListHandler` (post-binding): run
`GetMany` with the composed options (any failure is ProcessFailed); when
the `total` flag is set run the count with `getCountOptions`; a count
failure degrades to a `totalError` marker next to the successful rows.
The persistence layer is abstracted as the two oracles `getMany` and
`count`, keyed by the option list the code passes to them; rows are
abstracted by their ids. -/
def getListHandler (r : GetRequestBody)
    (getMany : List QueryOption → Except String (List Nat))
    (count : List QueryOption → Except String Int) : ListResp :=
  match getMany (buildQueryOptions r) with
  | .error e => .err CodeProcessFailed e
  | .ok rows =>
    if r.total then
      match count (getCountOptions r.filterBy r.filterValue) with
      | .error e => .success rows [.totalError e]
      | .ok n => .success rows [.total n]
    else .success rows []

/-! ## AssociationEngine state (`orm`, `service`) -/

/-- A child row: a primary key plus the remaining payload fields
(abstracted into one string). -/
structure ChildRow where
  id : Nat
  payload : String
  deriving DecidableEq

/-- A parent row, abstracted to its primary key. -/
structure ParentRow where
  id : Nat
  deriving DecidableEq

/-- The persistent state the association engine acts on: the parent
table, the child table, and the join table of (parent id, child id)
link rows. -/
structure DB where
  parents : List ParentRow
  children : List ChildRow
  links : List (Nat × Nat)
  deriving DecidableEq

/-- `service.GetByID[P]`: `FilterBy(idField, id)` plus `Take`, i.e. the
first row whose primary key matches, or record-not-found. -/
def getParentByID (db : DB) (id : Nat) : Option ParentRow :=
  db.parents.find? (fun p => p.id == id)

/-- `service.GetByID[T]` on the child table. -/
def getChildByID (db : DB) (id : Nat) : Option ChildRow :=
  db.children.find? (fun c => c.id == id)

/-- A fresh auto-increment primary key for the child table. -/
def freshChildId (db : DB) : Nat :=
  (db.children.map (fun c => c.id)).foldr max 0 + 1

/-- GORM's upsert of a child row by primary key (the effect of
`Association(field).Append` with `FullSaveAssociations` when the child
carries a non-zero primary key): every row with that key takes the given
value. -/
def upsertChild (db : DB) (c : ChildRow) : DB :=
  { db with children := db.children.map (fun r => if r.id == c.id then c else r) }

/-- Append a link row to the join table. -/
def appendLink (db : DB) (pid cid : Nat) : DB :=
  { db with links := db.links ++ [(pid, cid)] }

/-- Embedding of `service.NestInto(parent, field)` applied to a child:
`Model(parent).Association(field).Append(child)` under
`FullSaveAssociations`. A zero primary key inserts the child as a new
row under a fresh id; a non-zero key upserts the row; in both cases a
link row is appended. Returns the new state and the persisted child. -/
def nestInto (db : DB) (parent : ParentRow) (child : ChildRow) : DB × ChildRow :=
  if child.id == 0 then
    let newChild : ChildRow := { child with id := freshChildId db }
    let db1 := { db with children := db.children ++ [newChild] }
    (appendLink db1 parent.id newChild.id, newChild)
  else
    (appendLink (upsertChild db child) parent.id child.id, child)

/-- Observable steps of a nested-create request, for the ordering claim. -/
inductive Event where
  | childIdChecked
  | childLookup
  | parentLookup
  | linked
  deriving DecidableEq

/-- Response of the nested-create handler. -/
inductive CreateNestedResp where
  | err (code : Nat) (msg : String)
  | success (parent : ParentRow)
  deriving DecidableEq

/-- Embedding of `controller/create.go` `CreateNestedHandler` (after the
JSON payload is bound into `child`): missing parent id parameter is
BadRequest; then the child identity-zero check; when the bound child
carries a non-zero id, fetch it by id (NotFound if absent) and continue
with the stored row in place of the payload; then fetch the parent by id
(NotFound if absent); finally `service.Create(child, NestInto(parent,
field))` and respond with the parent. The third component is the trace
of observable steps in execution order. -/
def createNestedHandler (db : DB) (parentIDParam : Option Nat) (payload : ChildRow) :
    CreateNestedResp × DB × List Event :=
  match parentIDParam with
  | none => (.err CodeBadRequest "missing parent id", db, [])
  | some parentID =>
    if payload.id ≠ 0 then
      match getChildByID db payload.id with
      | none =>
        (.err CodeNotFound "record not found", db,
          [.childIdChecked, .childLookup])
      | some stored =>
        match getParentByID db parentID with
        | none =>
          (.err CodeNotFound "record not found", db,
            [.childIdChecked, .childLookup, .parentLookup])
        | some parent =>
          ((.success parent), (nestInto db parent stored).1,
            [.childIdChecked, .childLookup, .parentLookup, .linked])
    else
      match getParentByID db parentID with
      | none =>
        (.err CodeNotFound "record not found", db,
          [.childIdChecked, .parentLookup])
      | some parent =>
        ((.success parent), (nestInto db parent payload).1,
          [.childIdChecked, .parentLookup, .linked])

/-- Every event of `tr` satisfying `isTarget` has an earlier event
satisfying `isGuard`. -/
def eventPrecededBy (tr : List Event) (isTarget isGuard : Event → Bool) : Prop :=
  ∀ i : Fin tr.length, isTarget (tr.get i) →
    ∃ j : Fin tr.length, j.val < i.val ∧ isGuard (tr.get j)

instance (tr : List Event) (isTarget isGuard : Event → Bool) :
    Decidable (eventPrecededBy tr isTarget isGuard) := by
  unfold eventPrecededBy; infer_instance

/-! ## Delete (`service/delete.go`, controller delete handlers) -/

/-- Service-level error conditions. -/
inductive ServiceErr where
  | notFound
  deriving DecidableEq

/-- `DB.Model(parent).Association(field).Delete(child)`: remove the link
rows connecting this parent and this child; the child row itself is left
in place (the source's TODO comment explicitly defers any orphan sweep). -/
def deleteNested (db : DB) (parent : ParentRow) (child : ChildRow) : DB :=
  { db with links := db.links.filter (fun l => !(l.1 == parent.id && l.2 == child.id)) }

/-- Embedding of `service.DeleteNestedByID`: fetch the parent (NotFound
if absent), fetch the child (NotFound if absent), then `DeleteNested`. -/
def deleteNestedByID (db : DB) (parentID childID : Nat) : Except ServiceErr DB :=
  match getParentByID db parentID with
  | none => .error .notFound
  | some parent =>
    match getChildByID db childID with
    | none => .error .notFound
    | some child => .ok (deleteNested db parent child)

/-- `orm.DB.Delete(&model)`: delete the row by primary key. -/
def deleteRow (db : DB) (m : ChildRow) : DB :=
  { db with children := db.children.filter (fun r => !(r.id == m.id)) }

/-- Embedding of `service.DeleteByID`: `GetByID` first (its error — in
particular record-not-found — is returned as is), then delete the row. -/
def deleteByID (db : DB) (id : Nat) : Except ServiceErr DB :=
  match getChildByID db id with
  | none => .error .notFound
  | some m => .ok (deleteRow db m)

/-- Response of the delete handler: an error keeps both the HTTP status
code the handler chose and the underlying service error. -/
inductive DeleteResp where
  | err (code : Nat) (cause : ServiceErr)
  | deleted
  deriving DecidableEq

/-- Embedding of the controller's `DeleteHandler`: missing id parameter
is BadRequest; any error from `service.DeleteByID` — including the
record-not-found from its identity lookup — is answered with
`CodeProcessFailed`. -/
def deleteHandler (db : DB) (idParam : Option Nat) : DeleteResp × DB :=
  match idParam with
  | none => (.err CodeBadRequest .notFound, db)
  | some id =>
    match deleteByID db id with
    | .error e => (.err CodeProcessFailed e, db)
    | .ok db1 => (.deleted, db1)

/-! ## Update (`controller/update.go`, `service/update.go`) -/

/-- A stored Todo-shaped record (id plus two payload fields, enough to
express the frame conditions of the update claims). -/
structure TodoRow where
  id : Nat
  title : String
  done : Bool
  deriving DecidableEq

/-- A JSON update payload: each field is present or absent. -/
structure TodoPayload where
  id : Option Nat
  title : Option String
  done : Option Bool
  deriving DecidableEq

/-- `c.ShouldBindJSON(&updatedModel)` where `updatedModel` starts as a
copy of the stored record: JSON decoding into a pre-populated struct
leaves absent fields untouched. -/
def bindJSON (m : TodoRow) (p : TodoPayload) : TodoRow :=
  { id := p.id.getD m.id
    title := p.title.getD m.title
    done := p.done.getD m.done }

/-- `service.GetByID` on the Todo table. -/
def findTodo (db : List TodoRow) (id : Nat) : Option TodoRow :=
  db.find? (fun r => r.id == id)

/-- `orm.DB.Save(model)`: update all fields of the row with this primary
key, inserting when no such row exists. -/
def saveTodo (db : List TodoRow) (m : TodoRow) : List TodoRow :=
  if db.any (fun r => r.id == m.id) then
    db.map (fun r => if r.id == m.id then m else r)
  else db ++ [m]

/-- Response of the update handler. -/
inductive UpdateResp where
  | err (code : Nat) (msg : String)
  | success (m : TodoRow)
  deriving DecidableEq

/-- Embedding of `controller/update.go` `UpdateHandler`: read the id
parameter (BadRequest if missing); load the stored record (NotFound if
absent); bind the JSON payload over a copy of it; compare the stored
identity with the bound identity and answer BadRequest without writing
when they differ; otherwise `service.Update` (save) and respond with the
updated model. -/
def updateHandler (db : List TodoRow) (idParam : Option Nat) (payload : TodoPayload) :
    UpdateResp × List TodoRow :=
  match idParam with
  | none => (.err CodeBadRequest "missing id", db)
  | some id =>
    match findTodo db id with
    | none => (.err CodeNotFound "record not found", db)
    | some model =>
      let updatedModel := bindJSON model payload
      if model.id ≠ updatedModel.id then
        (.err CodeBadRequest "id can not be updated", db)
      else
        (.success updatedModel, saveTodo db updatedModel)

/-! ## Route token derivation (`router/crud.go` : `getIdParam`) -/

/-- What `getIdParam[T]` observes about a model type: its reflected type
name and the `Identity()` result of its zero value. -/
structure GoModelType where
  typeName : String
  identityOfZero : String × Nat

/-- `orm.BasicModel.Identity()`: always the field name `"ID"` with the
stored id value. -/
def basicModelIdentity (idValue : Nat) : String × Nat := ("ID", idValue)

/-- Embedding of `router/crud.go` `getIdParam`: the reflected type name
concatenated with the identity field name of the zero value. -/
def getIdParam (T : GoModelType) : String :=
  T.typeName ++ T.identityOfZero.1

/-- The `Todo` example model of the repository README: embeds
`orm.BasicModel`. -/
def TodoModelType : GoModelType :=
  { typeName := "Todo", identityOfZero := basicModelIdentity 0 }

/-- An `Order` model with identity field `ID`, as in the spec's example. -/
def OrderModelType : GoModelType :=
  { typeName := "Order", identityOfZero := basicModelIdentity 0 }

/-! ## Theorems -/

theorem removeChar_data (s : String) (c : Char) :
    (removeChar s c).data = s.data.filter (fun x => x != c) := rfl

/-- The four sequential single-character removals of the source equal the
spec's single-pass strip. -/
theorem nameToField_normalize_eq (name : String) :
    removeChar (removeChar (removeChar (removeChar (lowerStr name) ' ') '-') '_') '/'
      = normalizeSpec name := by
  show String.mk _ = String.mk _
  simp only [removeChar_data, lowerStr, List.filter_filter, normalizeSpec]
  congr 1
  apply List.filter_congr
  intro c _
  cases h1 : c == ' ' <;> cases h2 : c == '-' <;> cases h3 : c == '_' <;>
    cases h4 : c == '/' <;> simp_all

/-- C6: For every name n and model type T, the field resolver normalizes n
by lower-casing and stripping spaces, hyphens, underscores and slashes,
scans only T's top-level declared fields comparing each field's
lower-cased name to the normalized input, returns the matching field's
canonical declared name on exact match, and returns the normalized input
unchanged (not an error) when no field matches; for non-struct types the
name passes through unresolved. -/
theorem c6_field_resolver (name : String) (fields : List String) :
    nameToField name GoType.nonStruct = name ∧
    (∀ f, List.find? (fun f => lowerStr f == normalizeSpec name) fields = some f →
      nameToField name (GoType.structT fields) = f) ∧
    (List.find? (fun f => lowerStr f == normalizeSpec name) fields = none →
      nameToField name (GoType.structT fields) = normalizeSpec name) := by
  have hnorm := nameToField_normalize_eq name
  refine ⟨rfl, ?_, ?_⟩
  · intro f hf
    simp only [nameToField, hnorm, hf]
  · intro hf
    simp only [nameToField, hnorm, hf]

/-- C6 witness: resolving the separator-insensitive name on a concrete
struct type returns the canonical declared field name. -/
theorem c6_field_resolver_witness :
    nameToField "filter_by" (GoType.structT ["ID", "FilterBy"]) = "FilterBy" :=
  (c6_field_resolver "filter_by" ["ID", "FilterBy"]).2.1 "FilterBy" (by decide)

/-- C9: For every model type M with identity field F, the derived
route/parameter token equals the concatenation TypeName(M) + F exactly;
in particular an Order model with identity field ID yields OrderID, and
the README's Todo model yields TodoID. -/
theorem c9_id_param_token :
    (∀ M : GoModelType, getIdParam M = M.typeName ++ M.identityOfZero.1) ∧
    getIdParam OrderModelType = "OrderID" ∧
    getIdParam TodoModelType = "TodoID" :=
  ⟨fun _ => rfl, rfl, rfl⟩

/-- C4 counterexample: deleting a nonexistent id on an empty table is
answered with status 422 (ProcessFailed), not 404 (NotFound), because
`DeleteHandler` wraps every `service.DeleteByID` error as ProcessFailed. -/
theorem c4_counterexample :
    (deleteHandler ⟨[], [], []⟩ (some 5)).1
      = DeleteResp.err CodeProcessFailed ServiceErr.notFound ∧
    CodeProcessFailed ≠ CodeNotFound := by
  exact ⟨rfl, by decide⟩

/-- C4 amended: for every delete-by-id request whose id does not
reference an existing record, `service.DeleteByID` fails with the
NotFound error from its identity lookup, but the delete handler maps
every service error — this one included — to ProcessFailed, so the
response status is 422 (unprocessable), not 404. -/
theorem c4_delete_missing_is_process_failed (db : DB) (id : Nat)
    (h : getChildByID db id = none) :
    deleteByID db id = .error .notFound ∧
    deleteHandler db (some id) = (.err CodeProcessFailed .notFound, db) ∧
    CodeProcessFailed = 422 := by
  refine ⟨?_, ?_, rfl⟩ <;> simp [deleteByID, deleteHandler, h]

/-- C4 witness: the amended statement evaluated on an empty database. -/
theorem c4_delete_missing_witness :
    deleteByID ⟨[], [], []⟩ 5 = .error .notFound ∧
    deleteHandler ⟨[], [], []⟩ (some 5) = (.err CodeProcessFailed .notFound, ⟨[], [], []⟩) ∧
    CodeProcessFailed = 422 :=
  c4_delete_missing_is_process_failed ⟨[], [], []⟩ 5 (by rfl)

/-- C2: For every nested-delete request with a parent identity and a
child identity, the engine fetches both rows (failing with NotFound if
either is absent) and removes only the link connecting them; the child
row itself is never deleted and remains fetchable directly by its
identity afterwards. -/
theorem c2_unlink_preserves_child (db : DB) (parentID childID : Nat) :
    (getParentByID db parentID = none →
      deleteNestedByID db parentID childID = .error .notFound) ∧
    (∀ parent, getParentByID db parentID = some parent →
      getChildByID db childID = none →
      deleteNestedByID db parentID childID = .error .notFound) ∧
    (∀ parent child, getParentByID db parentID = some parent →
      getChildByID db childID = some child →
      deleteNestedByID db parentID childID = .ok (deleteNested db parent child) ∧
      (deleteNested db parent child).children = db.children ∧
      (deleteNested db parent child).parents = db.parents ∧
      (deleteNested db parent child).links =
        db.links.filter (fun l => !(l.1 == parent.id && l.2 == child.id)) ∧
      getChildByID (deleteNested db parent child) childID = some child) := by
  refine ⟨fun hp => ?_, fun parent hp hc => ?_, fun parent child hp hc => ?_⟩
  · simp [deleteNestedByID, hp]
  · simp [deleteNestedByID, hp, hc]
  · refine ⟨?_, rfl, rfl, rfl, ?_⟩
    · simp [deleteNestedByID, hp, hc]
    · simpa [getChildByID, deleteNested] using hc

/-- C2 witness: unlinking child 2 from parent 1 removes the link row and
leaves the child fetchable. -/
theorem c2_unlink_witness :
    deleteNestedByID ⟨[⟨1⟩], [⟨2, "x"⟩], [(1, 2)]⟩ 1 2
      = .ok (deleteNested ⟨[⟨1⟩], [⟨2, "x"⟩], [(1, 2)]⟩ ⟨1⟩ ⟨2, "x"⟩) ∧
    getChildByID (deleteNested ⟨[⟨1⟩], [⟨2, "x"⟩], [(1, 2)]⟩ ⟨1⟩ ⟨2, "x"⟩) 2
      = some ⟨2, "x"⟩ := by
  have h := (c2_unlink_preserves_child ⟨[⟨1⟩], [⟨2, "x"⟩], [(1, 2)]⟩ 1 2).2.2
    ⟨1⟩ ⟨2, "x"⟩ (by rfl) (by rfl)
  exact ⟨h.1, h.2.2.2.2⟩

/-- C3: For every list read with the total-count flag set, the total is
computed by a separate count execution that uses only the
equality-filter option (pagination, ordering and preload options are not
applied to it); if that count execution fails, the list request still
succeeds and returns the rows, with a count-error marker attached in
place of the count value. -/
theorem c3_total_count_degrades (r : GetRequestBody)
    (getMany : List QueryOption → Except String (List Nat))
    (count : List QueryOption → Except String Int)
    (rows : List Nat) (e : String)
    (htotal : r.total = true)
    (hrows : getMany (buildQueryOptions r) = .ok rows)
    (hcount : count (getCountOptions r.filterBy r.filterValue) = .error e) :
    getListHandler r getMany count = .success rows [.totalError e] ∧
    (∀ fb fv o, o ∈ getCountOptions fb fv → ∃ f v, o = QueryOption.filter f v) := by
  constructor
  · simp [getListHandler, hrows, htotal, hcount]
  · intro fb fv o ho
    unfold getCountOptions at ho
    split at ho
    · simp only [List.mem_singleton] at ho
      exact ⟨fb, fv, ho⟩
    · simp at ho

/-- C3 witness: a concrete list read whose count oracle fails still
succeeds with the rows and a totalError marker. -/
theorem c3_total_count_witness :
    getListHandler ⟨10, 0, "", false, "", "", [], true⟩
        (fun _ => .ok [7]) (fun _ => .error "count failed")
      = .success [7] [.totalError "count failed"] :=
  (c3_total_count_degrades ⟨10, 0, "", false, "", "", [], true⟩
    (fun _ => .ok [7]) (fun _ => .error "count failed") [7] "count failed"
    rfl rfl rfl).1

/-- C7: For every update request, if the identity value of the bound
payload differs from the identity value of the stored record, the
operation fails with an IdentityMismatch error mapped to bad-request
(HTTP 400) and no persistence write is performed, leaving the stored
record unchanged. -/
theorem c7_update_identity_mismatch (db : List TodoRow) (i : Nat)
    (m : TodoRow) (payload : TodoPayload) (j : Nat)
    (hfind : findTodo db i = some m)
    (hid : payload.id = some j)
    (hne : j ≠ m.id) :
    updateHandler db (some i) payload
      = (.err CodeBadRequest "id can not be updated", db) ∧
    CodeBadRequest = 400 := by
  refine ⟨?_, rfl⟩
  have hbind : (bindJSON m payload).id = j := by simp [bindJSON, hid]
  simp [updateHandler, hfind, hbind, Ne.symm hne]

/-- C7 witness: updating record 1 with a payload carrying id 9 is
rejected with bad-request and the table is unchanged. -/
theorem c7_update_identity_mismatch_witness :
    updateHandler [⟨1, "a", false⟩] (some 1) ⟨some 9, some "b", none⟩
      = (.err CodeBadRequest "id can not be updated", [⟨1, "a", false⟩]) ∧
    CodeBadRequest = 400 :=
  c7_update_identity_mismatch [⟨1, "a", false⟩] 1 ⟨1, "a", false⟩
    ⟨some 9, some "b", none⟩ 9 rfl rfl (by decide)

/-- Replacing, by primary key, the found row with a row carrying the same
key keeps the replacement findable at the original position. -/
theorem find_map_replace (l : List TodoRow) (i : Nat) (m u : TodoRow)
    (hfind : l.find? (fun r => r.id == i) = some m) (hu : u.id = m.id) :
    (l.map (fun r => if r.id == u.id then u else r)).find? (fun r => r.id == i)
      = some u := by
  induction l with
  | nil => simp at hfind
  | cons a t ih =>
    by_cases h : a.id = i
    · have hm : m = a := by
        rw [List.find?_cons_of_pos _ (by simpa using h)] at hfind
        exact (Option.some_inj.mp hfind).symm
      have hau : (a.id == u.id) = true := by simp [hu, hm]
      have hui : (u.id == i) = true := by simp [hu, hm, h]
      simp only [List.map_cons, hau, if_true]
      exact List.find?_cons_of_pos _ hui
    · rw [List.find?_cons_of_neg _ (by simpa using h)] at hfind
      have hmi : m.id = i := by
        simpa using List.find?_some hfind
      have hau : (a.id == u.id) = false := by
        simp [hu, hmi]
        exact h
      simp only [List.map_cons, hau, if_false]
      rw [List.find?_cons_of_neg _ (by simpa using h)]
      exact ih hfind

/-- Saving a row that keeps the primary key of an existing record leaves
it fetchable, updated, by that key. -/
theorem find_save (db : List TodoRow) (i : Nat) (m u : TodoRow)
    (hfind : findTodo db i = some m) (hu : u.id = m.id) :
    findTodo (saveTodo db u) i = some u := by
  have hmem : m ∈ db := List.mem_of_find?_eq_some hfind
  have hany : db.any (fun r => r.id == u.id) = true :=
    List.any_eq_true.mpr ⟨m, hmem, by simp [hu]⟩
  unfold saveTodo findTodo
  rw [if_pos hany]
  exact find_map_replace db i m u hfind hu

/-- C10: For every update request on an existing record, the handler
first loads the stored record and binds the JSON payload over a copy of
it, so every field absent from the request body retains its stored value
in the saved record; only fields present in the payload are changed
(merge semantics, not whole-record replacement). -/
theorem c10_update_merge (db : List TodoRow) (i : Nat) (m : TodoRow) (p : TodoPayload)
    (hfind : findTodo db i = some m)
    (hid : (bindJSON m p).id = m.id) :
    updateHandler db (some i) p
      = (.success (bindJSON m p), saveTodo db (bindJSON m p)) ∧
    (p.title = none → (bindJSON m p).title = m.title) ∧
    (p.done = none → (bindJSON m p).done = m.done) ∧
    (p.id = none → (bindJSON m p).id = m.id) ∧
    (∀ t, p.title = some t → (bindJSON m p).title = t) ∧
    (∀ d, p.done = some d → (bindJSON m p).done = d) ∧
    findTodo (updateHandler db (some i) p).2 i = some (bindJSON m p) := by
  have hhandler : updateHandler db (some i) p
      = (.success (bindJSON m p), saveTodo db (bindJSON m p)) := by
    simp [updateHandler, hfind, hid]
  refine ⟨hhandler, ?_, ?_, ?_, ?_, ?_, ?_⟩
  · intro h; simp [bindJSON, h]
  · intro h; simp [bindJSON, h]
  · intro h; simp [bindJSON, h]
  · intro t h; simp [bindJSON, h]
  · intro d h; simp [bindJSON, h]
  · rw [hhandler]
    exact find_save db i m (bindJSON m p) hfind hid

/-- C10 witness: a payload carrying only `done` keeps the stored title in
the saved record and flips only `done`. -/
theorem c10_update_merge_witness :
    updateHandler [⟨1, "clean", false⟩] (some 1) ⟨none, none, some true⟩
      = (.success ⟨1, "clean", true⟩, [⟨1, "clean", true⟩]) ∧
    findTodo (updateHandler [⟨1, "clean", false⟩] (some 1) ⟨none, none, some true⟩).2 1
      = some ⟨1, "clean", true⟩ := by
  have h := c10_update_merge [⟨1, "clean", false⟩] 1 ⟨1, "clean", false⟩
    ⟨none, none, some true⟩ rfl rfl
  exact ⟨h.1, h.2.2.2.2.2.2⟩

theorem preloadPaths_map (l : List String) : preloadPaths (l.map Preload) = l := by
  induction l with
  | nil => rfl
  | cons a t ih => simp [preloadPaths, Preload, List.filterMap_cons] at ih ⊢; exact ih

/-- The order expression `service.OrderBy` builds is the field with a
`" desc"` suffix exactly when descending is requested. -/
theorem orderBy_expr (f : String) (d : Bool) :
    OrderBy f d = .order (f ++ if d then " desc" else "") := by
  cases d <;> simp [OrderBy]

/-- Membership characterization of the composed option list. -/
theorem mem_buildQueryOptions (r : GetRequestBody) (o : QueryOption) :
    o ∈ buildQueryOptions r ↔
      ((r.limit > 0 ∧ o = .page r.limit r.offset) ∨
       (r.orderBy ≠ "" ∧ o = OrderBy r.orderBy r.descending) ∨
       ((r.filterBy ≠ "" ∧ r.filterValue ≠ "") ∧ o = .filter r.filterBy r.filterValue) ∨
       (∃ p ∈ r.preload, o = .preloadOpt p)) := by
  simp only [buildQueryOptions, List.mem_append, List.mem_ite_nil_right,
    List.mem_singleton, List.mem_map, WithPage, FilterBy, Preload]
  tauto

theorem preloadPaths_build (r : GetRequestBody) :
    preloadPaths (buildQueryOptions r) = r.preload := by
  unfold buildQueryOptions
  by_cases hl : r.limit > 0 <;> by_cases ho : r.orderBy = "" <;>
    by_cases hf : r.filterBy ≠ "" ∧ r.filterValue ≠ "" <;>
    simp [hl, ho, hf, preloadPaths, List.filterMap_append, WithPage, OrderBy, FilterBy]
      <;> simpa [preloadPaths] using preloadPaths_map r.preload

/-- C8: For every request-parameter set, the query-option pipeline
emits a pagination option only when limit > 0 (using (limit, offset)
verbatim), emits an ordering option only when order-by is non-empty
(appending a " desc" marker when descending is requested), emits an
equality-filter option only when both filter field and filter value are
non-empty, and emits one preload option per requested preload path. -/
theorem c8_option_emission (r : GetRequestBody) :
    ((∃ l o, QueryOption.page l o ∈ buildQueryOptions r) ↔ r.limit > 0) ∧
    (r.limit > 0 → QueryOption.page r.limit r.offset ∈ buildQueryOptions r) ∧
    ((∃ s, QueryOption.order s ∈ buildQueryOptions r) ↔ r.orderBy ≠ "") ∧
    (r.orderBy ≠ "" →
      QueryOption.order (r.orderBy ++ if r.descending then " desc" else "")
        ∈ buildQueryOptions r) ∧
    ((∃ f v, QueryOption.filter f v ∈ buildQueryOptions r) ↔
      (r.filterBy ≠ "" ∧ r.filterValue ≠ "")) ∧
    ((r.filterBy ≠ "" ∧ r.filterValue ≠ "") →
      QueryOption.filter r.filterBy r.filterValue ∈ buildQueryOptions r) ∧
    preloadPaths (buildQueryOptions r) = r.preload := by
  refine ⟨⟨?_, ?_⟩, ?_, ⟨?_, ?_⟩, ?_, ⟨?_, ?_⟩, ?_, preloadPaths_build r⟩
  · rintro ⟨l, o, h⟩
    rcases (mem_buildQueryOptions r _).mp h with ⟨hc, he⟩ | ⟨hc, he⟩ | ⟨hc, he⟩ | ⟨p, hp, he⟩
    · exact hc
    · simp [OrderBy] at he
    · simp at he
    · simp at he
  · intro hl
    exact ⟨r.limit, r.offset, (mem_buildQueryOptions r _).mpr (Or.inl ⟨hl, rfl⟩)⟩
  · intro hl
    exact (mem_buildQueryOptions r _).mpr (Or.inl ⟨hl, rfl⟩)
  · rintro ⟨s, h⟩
    rcases (mem_buildQueryOptions r _).mp h with ⟨hc, he⟩ | ⟨hc, he⟩ | ⟨hc, he⟩ | ⟨p, hp, he⟩
    · simp at he
    · exact hc
    · simp at he
    · simp at he
  · intro ho
    exact ⟨_, (mem_buildQueryOptions r _).mpr (Or.inr (Or.inl ⟨ho, rfl⟩))⟩
  · intro ho
    exact (mem_buildQueryOptions r _).mpr
      (Or.inr (Or.inl ⟨ho, (orderBy_expr r.orderBy r.descending).symm⟩))
  · rintro ⟨f, v, h⟩
    rcases (mem_buildQueryOptions r _).mp h with ⟨hc, he⟩ | ⟨hc, he⟩ | ⟨hc, he⟩ | ⟨p, hp, he⟩
    · simp at he
    · simp [OrderBy] at he
    · exact hc
    · simp at he
  · intro hf
    exact ⟨r.filterBy, r.filterValue,
      (mem_buildQueryOptions r _).mpr (Or.inr (Or.inr (Or.inl ⟨hf, rfl⟩)))⟩
  · intro hf
    exact (mem_buildQueryOptions r _).mpr (Or.inr (Or.inr (Or.inl ⟨hf, rfl⟩)))

/-- C8 witness: with limit 10 and a descending order on `age`, the
pipeline emits the verbatim pagination option and the `" desc"`-marked
ordering option. -/
theorem c8_option_emission_witness :
    QueryOption.page 10 0 ∈ buildQueryOptions ⟨10, 0, "age", true, "", "", [], false⟩ ∧
    QueryOption.order ("age" ++ " desc")
      ∈ buildQueryOptions ⟨10, 0, "age", true, "", "", [], false⟩ := by
  have h := c8_option_emission ⟨10, 0, "age", true, "", "", [], false⟩
  exact ⟨h.2.1 (by decide), h.2.2.2.1 (by decide)⟩

/-- Upserting, by primary key, the row that a primary-key lookup found is
a no-op on a table whose primary keys are unique. -/
theorem upsert_found_id (l : List ChildRow) (i : Nat) (c : ChildRow)
    (hfind : l.find? (fun r => r.id == i) = some c)
    (hnd : (l.map (fun r => r.id)).Nodup) :
    l.map (fun r => if r.id == c.id then c else r) = l := by
  induction l with
  | nil => rfl
  | cons a t ih =>
    simp only [List.map_cons, List.nodup_cons] at hnd
    by_cases h : a.id = i
    · have hc : c = a := by
        rw [List.find?_cons_of_pos _ (by simpa using h)] at hfind
        exact (Option.some_inj.mp hfind).symm
      have hhead : (a.id == c.id) = true := by simp [hc]
      simp only [List.map_cons, hhead, if_true, List.cons.injEq]
      refine ⟨hc, ?_⟩
      have hrest : ∀ r ∈ t, (if (r.id == c.id) = true then c else r) = r := by
        intro r hr
        have hne : r.id ≠ c.id := by
          intro he
          exact hnd.1 (by
            rw [hc] at he
            exact (List.mem_map.mpr ⟨r, hr, he⟩))
        simp [hne]
      rw [List.map_congr_left hrest]
      exact List.map_id t
    · rw [List.find?_cons_of_neg _ (by simpa using h)] at hfind
      have hci : c.id = i := by simpa using List.find?_some hfind
      have hhead : (a.id == c.id) = false := by
        simp [hci]
        exact h
      simp only [List.map_cons, hhead, if_false, List.cons.injEq]
      exact ⟨rfl, ih hfind hnd.2⟩

/-- C1: For every nested-create request, when the supplied child payload
carries a non-zero identity value the engine links an existing child: it
fetches the child row by that identity (failing with NotFound if
absent), does not apply the payload's other fields to the stored child
(the child table is unchanged), appends only a relationship link between
parent and child, and returns the parent; when the identity value is
zero it persists the child as a new row before linking. -/
theorem c1_nested_create_link_or_create (db : DB) (parentID : Nat) (payload : ChildRow)
    (hnodup : (db.children.map (fun r => r.id)).Nodup) :
    (payload.id ≠ 0 → getChildByID db payload.id = none →
      createNestedHandler db (some parentID) payload =
        (.err CodeNotFound "record not found", db, [.childIdChecked, .childLookup])) ∧
    (∀ stored parent, payload.id ≠ 0 →
      getChildByID db payload.id = some stored →
      getParentByID db parentID = some parent →
      createNestedHandler db (some parentID) payload =
        (.success parent,
         { db with links := db.links ++ [(parent.id, stored.id)] },
         [.childIdChecked, .childLookup, .parentLookup, .linked])) ∧
    (∀ parent, payload.id = 0 →
      getParentByID db parentID = some parent →
      createNestedHandler db (some parentID) payload =
        (.success parent,
         { parents := db.parents,
           children := db.children ++ [{ payload with id := freshChildId db }],
           links := db.links ++ [(parent.id, freshChildId db)] },
         [.childIdChecked, .parentLookup, .linked])) := by
  refine ⟨fun hz hc => ?_, fun stored parent hz hc hp => ?_, fun parent hz hp => ?_⟩
  · simp [createNestedHandler, hz, hc]
  · have hsid : stored.id = payload.id := by
      simpa using List.find?_some hc
    have hsz : (stored.id == 0) = false := by
      simp [hsid]
      exact hz
    have hupsert : db.children.map (fun r => if r.id == stored.id then stored else r)
        = db.children := upsert_found_id db.children payload.id stored hc hnodup
    simp [createNestedHandler, hz, hc, hp, nestInto, hsz, appendLink, upsertChild]
    simpa using hupsert
  · simp [createNestedHandler, hz, hp, nestInto, appendLink]

/-- C1 witness: linking the existing child 2 under parent 1 leaves the
child table untouched and appends only the link row. -/
theorem c1_nested_create_witness :
    createNestedHandler ⟨[⟨1⟩], [⟨2, "stored"⟩], []⟩ (some 1) ⟨2, "ignored"⟩
      = (.success ⟨1⟩,
         ⟨[⟨1⟩], [⟨2, "stored"⟩], [(1, 2)]⟩,
         [.childIdChecked, .childLookup, .parentLookup, .linked]) :=
  (c1_nested_create_link_or_create ⟨[⟨1⟩], [⟨2, "stored"⟩], []⟩ 1 ⟨2, "ignored"⟩
    (by decide)).2.1 ⟨2, "stored"⟩ ⟨1⟩ (by decide) rfl rfl

/-- C5 counterexample: in a concrete link-mode nested create the trace is
childIdChecked, childLookup, parentLookup, linked — the child identity
check and child lookup are NOT preceded by any parent lookup, refuting
the claimed ordering. -/
theorem c5_counterexample :
    ¬ eventPrecededBy
        (createNestedHandler ⟨[⟨1⟩], [⟨2, "x"⟩], []⟩ (some 1) ⟨2, "y"⟩).2.2
        (fun e => e == .childIdChecked || e == .childLookup)
        (fun e => e == .parentLookup) := by
  decide

/-- C5 amended: for every nested-create request the child identity check
is performed first; every parent lookup is preceded by the child
identity check, and, in link mode (non-zero payload identity), by the
child lookup as well. The parent lookup still always reaches
ParentResolved or NotFound before any linking step. -/
theorem c5_child_check_precedes_parent_lookup (db : DB) (param : Option Nat)
    (payload : ChildRow) :
    eventPrecededBy (createNestedHandler db param payload).2.2
      (fun e => e == .parentLookup) (fun e => e == .childIdChecked) ∧
    (payload.id ≠ 0 →
      eventPrecededBy (createNestedHandler db param payload).2.2
        (fun e => e == .parentLookup) (fun e => e == .childLookup)) ∧
    eventPrecededBy (createNestedHandler db param payload).2.2
      (fun e => e == .linked) (fun e => e == .parentLookup) := by
  cases param with
  | none =>
    refine ⟨?_, fun _ => ?_, ?_⟩ <;>
      · show eventPrecededBy [] _ _
        decide
  | some pid =>
    by_cases hz : payload.id ≠ 0
    · cases hc : getChildByID db payload.id with
      | none =>
        simp only [createNestedHandler, if_pos hz, hc]
        refine ⟨?_, fun _ => ?_, ?_⟩ <;>
          · show eventPrecededBy [.childIdChecked, .childLookup] _ _
            decide
      | some stored =>
        cases hp : getParentByID db pid with
        | none =>
          simp only [createNestedHandler, if_pos hz, hc, hp]
          refine ⟨?_, fun _ => ?_, ?_⟩ <;>
            · show eventPrecededBy [.childIdChecked, .childLookup, .parentLookup] _ _
              decide
        | some parent =>
          simp only [createNestedHandler, if_pos hz, hc, hp]
          refine ⟨?_, fun _ => ?_, ?_⟩ <;>
            · show eventPrecededBy
                [.childIdChecked, .childLookup, .parentLookup, .linked] _ _
              decide
    · cases hp : getParentByID db pid with
      | none =>
        simp only [createNestedHandler, if_neg hz, hp]
        refine ⟨?_, fun h => absurd h hz, ?_⟩ <;>
          · show eventPrecededBy [.childIdChecked, .parentLookup] _ _
            decide
      | some parent =>
        simp only [createNestedHandler, if_neg hz, hp]
        refine ⟨?_, fun h => absurd h hz, ?_⟩ <;>
          · show eventPrecededBy [.childIdChecked, .parentLookup, .linked] _ _
            decide

/-- C5 witness: the amended ordering evaluated on the concrete link-mode
run used by the counterexample. -/
theorem c5_child_check_precedes_parent_lookup_witness :
    eventPrecededBy
      (createNestedHandler ⟨[⟨1⟩], [⟨2, "x"⟩], []⟩ (some 1) ⟨2, "y"⟩).2.2
      (fun e => e == .parentLookup) (fun e => e == .childLookup) :=
  (c5_child_check_precedes_parent_lookup ⟨[⟨1⟩], [⟨2, "x"⟩], []⟩ (some 1) ⟨2, "y"⟩).2.1
    (by decide)

end Crud
